import Mathlib

/-!
Shallow embedding of the Family-Feud game-state machine from
`src/src/app/page.tsx`: the persisted `game_state` row, the scoring table
`getPoints`, and the host/buzzer handlers that mutate the row
(`handleBuzz`, `handleResetBuzzers`, `handleGiveStrike`,
`handleRevealAnswer`, `handleRevealAll`, `handleSetQuestion`,
`handleClearBoard`, `handleSetScore`, `handleResetScores`,
`handleSetTeamName`).

Modelling conventions:
* Each Supabase `update({...}).eq('id', 1)` is a pure function
  `GameState → GameState` setting exactly the listed fields.
* `revealed_answers_json` is stored as a JSON string and is parsed with
  `JSON.parse` on every read and written with `JSON.stringify`; since the
  round trip is the identity on arrays of id strings, the field is
  modelled directly as `List String`.
* JavaScript numbers fed to `handleSetScore` come from `Number(...)` and
  may be `NaN`; such an input is modelled as `Option Int` with `none`
  standing for `NaN` (`isNaN` is `Option.isNone`).
* `handleBuzz` issues a conditional write: the update carries the extra
  filter `.eq('buzzer_state', 'armed')`, so the database applies it only
  when the stored row is still armed.  The client's possibly stale view
  of the row (its early-return guard) and the database row are therefore
  separate `GameState` arguments.
-/

namespace FamilyFeud

/-- Team tag, the `'a' | 'b'` union type of the source. -/
inductive Team where
  | a
  | b
deriving DecidableEq

/-- Buzzer availability, the `'armed' | 'locked'` union type. -/
inductive BuzzerState where
  | armed
  | locked
deriving DecidableEq

/-- The singleton `game_state` row (`type GameState`, page.tsx lines 68-79). -/
structure GameState where
  current_question_id : Option String
  team_a_score : Int
  team_b_score : Int
  team_a_name : String
  team_b_name : String
  revealed_answers : List String
  buzzer_state : BuzzerState
  buzzer_winner : Option Team
  strikes : Int
deriving DecidableEq

/-- An answer record (`type Answer`, page.tsx lines 62-67). -/
structure Answer where
  id : String
  question_id : String
  text : String
  display_order : Int
deriving DecidableEq

/-- A question together with its answers (`type FullQuestion`);
only the parts the handlers read. -/
structure FullQuestion where
  id : String
  answers : List Answer
deriving DecidableEq

/-- `POINTS_MAP[order] || 0` (page.tsx lines 107-117): the rank→points
table {1:50, 2:40, 3:30, 4:20, 5:15, 6:10, 7:5, 8:5} with 0 for any
key missing from the map. -/
def getPoints (order : Int) : Int :=
  if order = 1 then 50
  else if order = 2 then 40
  else if order = 3 then 30
  else if order = 4 then 20
  else if order = 5 then 15
  else if order = 6 then 10
  else if order = 7 then 5
  else if order = 8 then 5
  else 0

/-- `handleSetTeamName` (page.tsx lines 407-410): update the one name
field selected by the team tag. -/
def handleSetTeamName (team : Team) (name : String) (s : GameState) : GameState :=
  match team with
  | Team.a => { s with team_a_name := name }
  | Team.b => { s with team_b_name := name }

/-- `handleSetScore` (page.tsx lines 413-418): `isNaN(score) ? 0 : score`,
then update the one score field selected by the team tag
(`none` models `NaN`). -/
def handleSetScore (team : Team) (score : Option Int) (s : GameState) : GameState :=
  let newScore : Int := match score with
    | none => 0
    | some v => v
  match team with
  | Team.a => { s with team_a_score := newScore }
  | Team.b => { s with team_b_score := newScore }

/-- `handleSetQuestion` (page.tsx lines 420-431): one update setting the
question pointer, re-arming the buzzer, clearing the winner, emptying
the revealed set and zeroing strikes. -/
def handleSetQuestion (qId : String) (s : GameState) : GameState :=
  { s with
    current_question_id := some qId
    buzzer_state := BuzzerState.armed
    buzzer_winner := none
    revealed_answers := []
    strikes := 0 }

/-- `handleResetBuzzers` (page.tsx lines 433-438): force
`buzzer_state = armed, buzzer_winner = null`. -/
def handleResetBuzzers (s : GameState) : GameState :=
  { s with buzzer_state := BuzzerState.armed, buzzer_winner := none }

/-- `handleClearBoard` (page.tsx lines 440-451): like `handleSetQuestion`
but with `current_question_id = null`. -/
def handleClearBoard (s : GameState) : GameState :=
  { s with
    current_question_id := none
    buzzer_state := BuzzerState.armed
    buzzer_winner := none
    revealed_answers := []
    strikes := 0 }

/-- `handleResetScores` (page.tsx lines 453-458). -/
def handleResetScores (s : GameState) : GameState :=
  { s with team_a_score := 0, team_b_score := 0 }

/-- `handleGiveStrike` (page.tsx lines 460-472): read
`currentStrikes = gameState.strikes || 0` (the identity on an integer
field), return early when `currentStrikes >= 3`, otherwise increment
strikes and re-arm. -/
def handleGiveStrike (s : GameState) : GameState :=
  let currentStrikes := s.strikes
  if 3 ≤ currentStrikes then s
  else { s with
    strikes := currentStrikes + 1
    buzzer_state := BuzzerState.armed
    buzzer_winner := none }

/-- The Give Strike button (page.tsx lines 580-587) is rendered with
`disabled={gameState.strikes >= 3 || !currentQuestion}`, so a press
reaches `handleGiveStrike` only when strikes are below the cap and a
question is selected.  `giveStrike` is the user-invokable operation:
the disabled guard followed by the handler. -/
def giveStrike (currentQuestion : Option FullQuestion) (s : GameState) : GameState :=
  if 3 ≤ s.strikes ∨ currentQuestion = none then s
  else handleGiveStrike s

/-- `handleRevealAnswer` (page.tsx lines 474-500): return early when the
answer is already revealed or there is no buzzer winner; otherwise add
`getPoints(answer.display_order)` to the winning team's score, append
`answer.id` to the revealed list, and set `buzzer_state = locked`
(the update does not touch `buzzer_winner`). -/
def handleRevealAnswer (answer : Answer) (s : GameState) : GameState :=
  if answer.id ∈ s.revealed_answers ∨ s.buzzer_winner = none then s
  else
    let points := getPoints answer.display_order
    let newScoreA :=
      if s.buzzer_winner = some Team.a then s.team_a_score + points else s.team_a_score
    let newScoreB :=
      if s.buzzer_winner = some Team.b then s.team_b_score + points else s.team_b_score
    { s with
      team_a_score := newScoreA
      team_b_score := newScoreB
      revealed_answers := s.revealed_answers ++ [answer.id]
      buzzer_state := BuzzerState.locked }

/-- `handleRevealAll` (page.tsx lines 503-514): return early when no
question is loaded; otherwise overwrite the revealed list with every
answer id of the current question, lock the buzzer and clear the
winner.  Scores are not in the update. -/
def handleRevealAll (currentQuestion : Option FullQuestion) (s : GameState) : GameState :=
  match currentQuestion with
  | none => s
  | some q =>
    { s with
      revealed_answers := q.answers.map (fun a => a.id)
      buzzer_state := BuzzerState.locked
      buzzer_winner := none }

/-- The database side of `handleBuzz` (page.tsx lines 874-881): the
update `{buzzer_state: 'locked', buzzer_winner: team}` carries the
filter `.eq('buzzer_state', 'armed')`, so it changes the row exactly
when the stored row is still armed — a compare-and-swap. -/
def dbConditionalBuzz (team : Team) (db : GameState) : GameState :=
  if db.buzzer_state = BuzzerState.armed then
    { db with buzzer_state := BuzzerState.locked, buzzer_winner := some team }
  else db

/-- `handleBuzz` (page.tsx lines 868-882): early return when the client
has no team or its (possibly stale) view of the row is not armed;
otherwise send the conditional write, applied against the database
row. -/
def handleBuzz (team : Option Team) (view : GameState) (db : GameState) : GameState :=
  match team with
  | none => db
  | some t =>
    if view.buzzer_state = BuzzerState.armed then dbConditionalBuzz t db
    else db

/-- Score of the named team, to state effects uniformly over the winner. -/
def teamScore : Team → GameState → Int
  | Team.a, s => s.team_a_score
  | Team.b, s => s.team_b_score

/-- The opposing team. -/
def otherTeam : Team → Team
  | Team.a => Team.b
  | Team.b => Team.a

/-- One buzz attempt as it serializes at the database: the client's team
choice (possibly unset) and the client's view of the row when it
pressed the button. -/
def BuzzAttempt : Type := Option Team × GameState

/-- Apply a sequence of buzz attempts to the database row in arrival
order; this is the serialization of concurrent claims at the store. -/
def runBuzzes : List BuzzAttempt → GameState → GameState
  | [], db => db
  | (t, view) :: rest, db => runBuzzes rest (handleBuzz t view db)

/-- A buzz attempt succeeds when a team is chosen, the client's view is
armed (so the request is sent), and the database row is armed (so the
conditional write applies).  `buzzSuccessCount` counts the successes
along a sequence of attempts. -/
def buzzSuccessCount : List BuzzAttempt → GameState → Nat
  | [], _ => 0
  | (t, view) :: rest, db =>
    (if t ≠ none ∧ view.buzzer_state = BuzzerState.armed ∧
        db.buzzer_state = BuzzerState.armed then 1 else 0)
      + buzzSuccessCount rest (handleBuzz t view db)

/-- The state-mutating operations of the application, each with the
client-side inputs it reads. -/
inductive HostOp where
  | buzz (team : Option Team) (view : GameState)
  | resetBuzzers
  | strike (currentQuestion : Option FullQuestion)
  | reveal (answer : Answer)
  | revealAll (currentQuestion : Option FullQuestion)
  | setQuestion (qId : String)
  | clearBoard
  | setScore (team : Team) (score : Option Int)
  | resetScores
  | setTeamName (team : Team) (name : String)

/-- Apply one operation to the database row. -/
def applyOp : HostOp → GameState → GameState
  | HostOp.buzz t view, s => handleBuzz t view s
  | HostOp.resetBuzzers, s => handleResetBuzzers s
  | HostOp.strike cq, s => giveStrike cq s
  | HostOp.reveal ans, s => handleRevealAnswer ans s
  | HostOp.revealAll cq, s => handleRevealAll cq s
  | HostOp.setQuestion qId, s => handleSetQuestion qId s
  | HostOp.clearBoard, s => handleClearBoard s
  | HostOp.setScore t v, s => handleSetScore t v s
  | HostOp.resetScores, s => handleResetScores s
  | HostOp.setTeamName t n, s => handleSetTeamName t n s

/-- Apply a sequence of operations in order. -/
def runOps : List HostOp → GameState → GameState
  | [], s => s
  | op :: rest, s => runOps rest (applyOp op s)

/-- The invariant: a recorded buzzer winner implies the buzzer is locked. -/
def WinnerLockedInv (s : GameState) : Prop :=
  s.buzzer_winner ≠ none → s.buzzer_state = BuzzerState.locked

instance : DecidablePred WinnerLockedInv := fun s => by
  unfold WinnerLockedInv; infer_instance

/-- A sample armed row used to instantiate proved theorems. -/
def sampleArmed : GameState :=
  { current_question_id := some "q1"
    team_a_score := 0
    team_b_score := 0
    team_a_name := "Team A"
    team_b_name := "Team B"
    revealed_answers := []
    buzzer_state := BuzzerState.armed
    buzzer_winner := none
    strikes := 0 }

/-- A sample locked row with team `a` holding the buzzer. -/
def sampleLocked : GameState :=
  { sampleArmed with
    buzzer_state := BuzzerState.locked
    buzzer_winner := some Team.a }

/-- A sample rank-1 answer of question `q1`. -/
def sampleAnswer : Answer :=
  { id := "ans1", question_id := "q1", text := "pizza", display_order := 1 }

/-- An answer of a different question, `q2`. -/
def foreignAnswer : Answer :=
  { id := "ans9", question_id := "q2", text := "tacos", display_order := 1 }

/-- A sample question `q1` with two answers. -/
def sampleQuestion : FullQuestion :=
  { id := "q1"
    answers :=
      [sampleAnswer,
       { id := "ans2", question_id := "q1", text := "pasta", display_order := 2 }] }

/-! ## Theorems -/

/-- C5: the scoring table maps rank 1 to 50, 2 to 40, 3 to 30, 4 to 20,
5 to 15, 6 to 10, 7 to 5 and 8 to 5, and every rank outside the table
(below 1 or above 8) scores 0; in particular rank 9 scores 0. -/
theorem getPoints_table :
    getPoints 1 = 50 ∧ getPoints 2 = 40 ∧ getPoints 3 = 30 ∧ getPoints 4 = 20 ∧
    getPoints 5 = 15 ∧ getPoints 6 = 10 ∧ getPoints 7 = 5 ∧ getPoints 8 = 5 ∧
    getPoints 9 = 0 ∧
    ∀ r : Int, r < 1 ∨ 8 < r → getPoints r = 0 := by
  refine ⟨rfl, rfl, rfl, rfl, rfl, rfl, rfl, rfl, rfl, ?_⟩
  intro r hr
  have h1 : r ≠ 1 := by omega
  have h2 : r ≠ 2 := by omega
  have h3 : r ≠ 3 := by omega
  have h4 : r ≠ 4 := by omega
  have h5 : r ≠ 5 := by omega
  have h6 : r ≠ 6 := by omega
  have h7 : r ≠ 7 := by omega
  have h8 : r ≠ 8 := by omega
  simp [getPoints, h1, h2, h3, h4, h5, h6, h7, h8]

/-- Witness for C5: rank 0 lies outside the table and scores 0. -/
theorem getPoints_table_witness : ((0 : Int) < 1 ∨ (8 : Int) < 0) ∧ getPoints 0 = 0 :=
  ⟨Or.inl (by norm_num),
   getPoints_table.2.2.2.2.2.2.2.2.2 0 (Or.inl (by norm_num))⟩

/-- C6 counterexample: rank 9 satisfies 8 ≤ 9 but scores 0, not the
rank-8 value 5, refuting "scoreTable(r) = scoreTable(8) = 5 for all
r ≥ 8". -/
theorem getPoints_nine_counterexample :
    (8 : Int) ≤ 9 ∧ getPoints 9 = 0 ∧ getPoints 9 ≠ 5 := by
  refine ⟨by norm_num, rfl, by decide⟩

/-- C6 (amended): ranks 7 and 8 share the point value 5, and every rank
r ≥ 9 scores 0 — the table does not extend the rank-8 value beyond
rank 8. -/
theorem getPoints_high_ranks :
    getPoints 7 = 5 ∧ getPoints 8 = 5 ∧ ∀ r : Int, 9 ≤ r → getPoints r = 0 := by
  refine ⟨rfl, rfl, ?_⟩
  intro r hr
  have h1 : r ≠ 1 := by omega
  have h2 : r ≠ 2 := by omega
  have h3 : r ≠ 3 := by omega
  have h4 : r ≠ 4 := by omega
  have h5 : r ≠ 5 := by omega
  have h6 : r ≠ 6 := by omega
  have h7 : r ≠ 7 := by omega
  have h8 : r ≠ 8 := by omega
  simp [getPoints, h1, h2, h3, h4, h5, h6, h7, h8]

/-- Witness for the amended C6: rank 12 scores 0. -/
theorem getPoints_high_ranks_witness : (9 : Int) ≤ 12 ∧ getPoints 12 = 0 :=
  ⟨by norm_num, getPoints_high_ranks.2.2 12 (by norm_num)⟩

/-- C8: from every prior state, `selectQuestion(id)` yields
`current_question_id = id`, `strikes = 0`, empty `revealed_answers`,
`buzzer_state = armed` and `buzzer_winner = null`; `clearBoard()`
yields the identical state except `current_question_id = null`. -/
theorem setQuestion_clearBoard_spec (qId : String) (s : GameState) :
    (handleSetQuestion qId s).current_question_id = some qId ∧
    (handleSetQuestion qId s).strikes = 0 ∧
    (handleSetQuestion qId s).revealed_answers = [] ∧
    (handleSetQuestion qId s).buzzer_state = BuzzerState.armed ∧
    (handleSetQuestion qId s).buzzer_winner = none ∧
    handleClearBoard s = { handleSetQuestion qId s with current_question_id := none } := by
  refine ⟨rfl, rfl, rfl, rfl, rfl, rfl⟩

/-- C10: `setScore(team, value)` stores 0 for a `NaN` input (`none`),
stores any numeric input as given in the named team's score field, and
changes no other field of the row. -/
theorem setScore_spec (t : Team) (v : Option Int) (s : GameState) :
    (v = none → teamScore t (handleSetScore t v s) = 0) ∧
    (∀ x : Int, v = some x → teamScore t (handleSetScore t v s) = x) ∧
    teamScore (otherTeam t) (handleSetScore t v s) = teamScore (otherTeam t) s ∧
    (handleSetScore t v s).current_question_id = s.current_question_id ∧
    (handleSetScore t v s).team_a_name = s.team_a_name ∧
    (handleSetScore t v s).team_b_name = s.team_b_name ∧
    (handleSetScore t v s).revealed_answers = s.revealed_answers ∧
    (handleSetScore t v s).buzzer_state = s.buzzer_state ∧
    (handleSetScore t v s).buzzer_winner = s.buzzer_winner ∧
    (handleSetScore t v s).strikes = s.strikes := by
  cases t <;> cases v <;> simp [handleSetScore, teamScore, otherTeam]

/-- Witness for C10: a `NaN` input zeroes team a's score in the sample
armed state. -/
theorem setScore_spec_witness :
    (none : Option Int) = none ∧
    teamScore Team.a (handleSetScore Team.a none sampleArmed) = 0 :=
  ⟨rfl, (setScore_spec Team.a none sampleArmed).1 rfl⟩

/-- C7: with a current question loaded, `revealAll()` sets the revealed
set to exactly the ids of the question's answers (so every answer of
the question is revealed), locks the buzzer with the winner cleared,
and — for every question argument and prior state — changes neither
team's score. -/
theorem revealAll_spec (q : FullQuestion) (cq : Option FullQuestion) (s : GameState)
    (h : cq = some q) :
    (handleRevealAll cq s).revealed_answers = q.answers.map (fun a => a.id) ∧
    (∀ a : Answer, a ∈ q.answers → a.id ∈ (handleRevealAll cq s).revealed_answers) ∧
    (handleRevealAll cq s).buzzer_state = BuzzerState.locked ∧
    (handleRevealAll cq s).buzzer_winner = none ∧
    (∀ (cq2 : Option FullQuestion) (s2 : GameState),
      (handleRevealAll cq2 s2).team_a_score = s2.team_a_score ∧
      (handleRevealAll cq2 s2).team_b_score = s2.team_b_score) := by
  subst h
  refine ⟨rfl, ?_, rfl, rfl, ?_⟩
  · intro a ha
    simp only [handleRevealAll, List.mem_map]
    exact ⟨a, ha, rfl⟩
  · intro cq2 s2
    cases cq2 <;> simp [handleRevealAll]

/-- Witness for C7: revealing all of the sample question from the locked
sample state reveals both answer ids and clears the winner. -/
theorem revealAll_spec_witness :
    (handleRevealAll (some sampleQuestion) sampleLocked).revealed_answers
      = sampleQuestion.answers.map (fun a => a.id) ∧
    (handleRevealAll (some sampleQuestion) sampleLocked).buzzer_winner = none ∧
    (handleRevealAll (some sampleQuestion) sampleLocked).team_a_score
      = sampleLocked.team_a_score :=
  ⟨(revealAll_spec sampleQuestion (some sampleQuestion) sampleLocked rfl).1,
   (revealAll_spec sampleQuestion (some sampleQuestion) sampleLocked rfl).2.2.2.1,
   ((revealAll_spec sampleQuestion (some sampleQuestion) sampleLocked rfl).2.2.2.2
      (some sampleQuestion) sampleLocked).1⟩

/-- C9: the strike operation (the Give Strike button guarding
`handleGiveStrike`) increments strikes by exactly 1 and re-arms with the
winner cleared when `strikes < 3` and a question is selected; when
either precondition fails it changes no field; and it keeps strikes in
[0, 3]. -/
theorem giveStrike_spec (cq : Option FullQuestion) (s : GameState) :
    (s.strikes < 3 ∧ cq ≠ none →
      (giveStrike cq s).strikes = s.strikes + 1 ∧
      (giveStrike cq s).buzzer_state = BuzzerState.armed ∧
      (giveStrike cq s).buzzer_winner = none) ∧
    (3 ≤ s.strikes ∨ cq = none → giveStrike cq s = s) ∧
    (0 ≤ s.strikes ∧ s.strikes ≤ 3 →
      0 ≤ (giveStrike cq s).strikes ∧ (giveStrike cq s).strikes ≤ 3) := by
  by_cases hc : 3 ≤ s.strikes ∨ cq = none
  · rw [giveStrike, if_pos hc]
    refine ⟨?_, fun _ => rfl, fun hb => ⟨hb.1, hb.2⟩⟩
    intro hpre
    rcases hc with h | h
    · omega
    · exact absurd h hpre.2
  · rw [giveStrike, if_neg hc]
    push_neg at hc
    obtain ⟨h3, hcq⟩ := hc
    rw [handleGiveStrike]
    rw [if_neg (by omega)]
    refine ⟨fun _ => ⟨rfl, rfl, rfl⟩, ?_, ?_⟩
    · intro h
      rcases h with h | h
      · omega
      · exact absurd h hcq
    · intro hb
      constructor <;> simp <;> omega

/-- Witness for C9: a strike from the armed sample state (0 strikes,
question selected) yields 1 strike. -/
theorem giveStrike_spec_witness :
    (sampleArmed.strikes < 3 ∧ (some sampleQuestion : Option FullQuestion) ≠ none) ∧
    (giveStrike (some sampleQuestion) sampleArmed).strikes = sampleArmed.strikes + 1 :=
  ⟨⟨by decide, Option.some_ne_none sampleQuestion⟩,
   ((giveStrike_spec (some sampleQuestion) sampleArmed).1
      ⟨by decide, Option.some_ne_none sampleQuestion⟩).1⟩

/-- C3: with a buzzer winner recorded, the answer not yet revealed, and
the answer belonging to the current question, `reveal(answer)` adds
`getPoints(answer.display_order)` to exactly the winning team's score,
appends `answer.id` to the revealed set, sets `buzzer_state = locked`
and leaves `buzzer_winner` unchanged. -/
theorem revealAnswer_spec (answer : Answer) (s : GameState) (t : Team)
    (hw : s.buzzer_winner = some t)
    (hr : answer.id ∉ s.revealed_answers)
    (_hq : s.current_question_id = some answer.question_id) :
    teamScore t (handleRevealAnswer answer s)
      = teamScore t s + getPoints answer.display_order ∧
    teamScore (otherTeam t) (handleRevealAnswer answer s)
      = teamScore (otherTeam t) s ∧
    (handleRevealAnswer answer s).revealed_answers
      = s.revealed_answers ++ [answer.id] ∧
    answer.id ∈ (handleRevealAnswer answer s).revealed_answers ∧
    (handleRevealAnswer answer s).buzzer_state = BuzzerState.locked ∧
    (handleRevealAnswer answer s).buzzer_winner = some t := by
  have hguard : ¬ (answer.id ∈ s.revealed_answers ∨ s.buzzer_winner = none) := by
    intro hcontra
    rcases hcontra with h | h
    · exact hr h
    · rw [hw] at h
      exact Option.some_ne_none t h
  rw [handleRevealAnswer, if_neg hguard]
  cases t <;> simp [teamScore, otherTeam, hw]

/-- Witness for C3: team a reveals the rank-1 sample answer from the
locked sample state and gains `getPoints 1 = 50` points. -/
theorem revealAnswer_spec_witness :
    teamScore Team.a (handleRevealAnswer sampleAnswer sampleLocked)
      = teamScore Team.a sampleLocked + getPoints sampleAnswer.display_order ∧
    (handleRevealAnswer sampleAnswer sampleLocked).buzzer_state = BuzzerState.locked ∧
    (handleRevealAnswer sampleAnswer sampleLocked).buzzer_winner = some Team.a :=
  ⟨(revealAnswer_spec sampleAnswer sampleLocked Team.a rfl (by decide) rfl).1,
   (revealAnswer_spec sampleAnswer sampleLocked Team.a rfl (by decide) rfl).2.2.2.2.1,
   (revealAnswer_spec sampleAnswer sampleLocked Team.a rfl (by decide) rfl).2.2.2.2.2⟩

/-- C4 counterexample: `handleRevealAnswer` never checks that the answer
belongs to the current question. From the locked sample state (current
question `q1`, winner team a, nothing revealed), revealing an answer of
question `q2` is not a no-op: it changes the state and pays team a its
50 points. -/
theorem revealAnswer_foreign_counterexample :
    sampleLocked.current_question_id ≠ some foreignAnswer.question_id ∧
    handleRevealAnswer foreignAnswer sampleLocked ≠ sampleLocked ∧
    (handleRevealAnswer foreignAnswer sampleLocked).team_a_score
      = sampleLocked.team_a_score + 50 := by
  refine ⟨by decide, by decide, by decide⟩

/-- C4 (amended): `reveal(answer)` is a no-op leaving the state unchanged
when `buzzer_winner` is null or `answer.id` is already revealed — the
two conditions the handler checks; it does not check membership in the
current question (the host UI only offers the current question's
answers).  Calling it twice with the same answer equals calling it
once. -/
theorem revealAnswer_noop_idempotent (answer : Answer) (s : GameState) :
    (s.buzzer_winner = none → handleRevealAnswer answer s = s) ∧
    (answer.id ∈ s.revealed_answers → handleRevealAnswer answer s = s) ∧
    handleRevealAnswer answer (handleRevealAnswer answer s)
      = handleRevealAnswer answer s := by
  have hnoopMem : ∀ s2 : GameState, answer.id ∈ s2.revealed_answers →
      handleRevealAnswer answer s2 = s2 := by
    intro s2 hm
    rw [handleRevealAnswer, if_pos (Or.inl hm)]
  refine ⟨?_, hnoopMem s, ?_⟩
  · intro h
    rw [handleRevealAnswer, if_pos (Or.inr h)]
  · by_cases hg : answer.id ∈ s.revealed_answers ∨ s.buzzer_winner = none
    · have h1 : handleRevealAnswer answer s = s := by
        rw [handleRevealAnswer, if_pos hg]
      rw [h1]
      exact h1
    · have h2 : answer.id ∈ (handleRevealAnswer answer s).revealed_answers := by
        rw [handleRevealAnswer, if_neg hg]
        simp
      exact hnoopMem _ h2

/-- Witness for the amended C4: with no buzzer winner in the armed sample
state, revealing the sample answer changes nothing. -/
theorem revealAnswer_noop_idempotent_witness :
    sampleArmed.buzzer_winner = none ∧
    handleRevealAnswer sampleAnswer sampleArmed = sampleArmed :=
  ⟨rfl, (revealAnswer_noop_idempotent sampleAnswer sampleArmed).1 rfl⟩

/-- A buzz against a row that is not armed leaves the row unchanged:
either the client never sends the request, or the conditional write's
filter rejects it. -/
theorem handleBuzz_not_armed (t : Option Team) (view db : GameState)
    (h : db.buzzer_state ≠ BuzzerState.armed) : handleBuzz t view db = db := by
  cases t with
  | none => rfl
  | some t0 =>
    rw [handleBuzz]
    by_cases hv : view.buzzer_state = BuzzerState.armed
    · rw [if_pos hv, dbConditionalBuzz, if_neg h]
    · rw [if_neg hv]

/-- No buzz attempt can succeed against a row that is not armed, and the
handlers of a failed attempt leave the row not armed, so the whole
sequence has zero successes. -/
theorem buzzSuccessCount_not_armed (attempts : List BuzzAttempt) (db : GameState)
    (h : db.buzzer_state ≠ BuzzerState.armed) : buzzSuccessCount attempts db = 0 := by
  induction attempts generalizing db with
  | nil => rfl
  | cons att rest ih =>
    obtain ⟨t, view⟩ := att
    rw [buzzSuccessCount, if_neg (fun hc => h hc.2.2),
      handleBuzz_not_armed t view db h, ih db h]

/-- Once the row is not armed, any further buzz attempts leave it
untouched. -/
theorem runBuzzes_not_armed (attempts : List BuzzAttempt) (db : GameState)
    (h : db.buzzer_state ≠ BuzzerState.armed) : runBuzzes attempts db = db := by
  induction attempts generalizing db with
  | nil => rfl
  | cons att rest ih =>
    obtain ⟨t, view⟩ := att
    rw [runBuzzes, handleBuzz_not_armed t view db h]
    exact ih db h

/-- Among any serialized sequence of buzz attempts, at most one succeeds. -/
theorem buzzSuccessCount_le_one (attempts : List BuzzAttempt) (db : GameState) :
    buzzSuccessCount attempts db ≤ 1 := by
  induction attempts generalizing db with
  | nil => exact Nat.zero_le 1
  | cons att rest ih =>
    obtain ⟨t, view⟩ := att
    rw [buzzSuccessCount]
    by_cases hc : t ≠ none ∧ view.buzzer_state = BuzzerState.armed ∧
        db.buzzer_state = BuzzerState.armed
    · rw [if_pos hc]
      obtain ⟨ht, hv, hd⟩ := hc
      have hlocked : (handleBuzz t view db).buzzer_state = BuzzerState.locked := by
        cases t with
        | none => exact absurd rfl ht
        | some t0 =>
          rw [handleBuzz, if_pos hv, dbConditionalBuzz, if_pos hd]
      rw [buzzSuccessCount_not_armed rest (handleBuzz t view db)
        (by rw [hlocked]; exact fun hcontra => BuzzerState.noConfusion hcontra)]
    · rw [if_neg hc]
      have heq : handleBuzz t view db = db := by
        cases t with
        | none => rfl
        | some t0 =>
          by_cases hv : view.buzzer_state = BuzzerState.armed
          · by_cases hd : db.buzzer_state = BuzzerState.armed
            · exact absurd ⟨Option.some_ne_none t0, hv, hd⟩ hc
            · rw [handleBuzz, if_pos hv, dbConditionalBuzz, if_neg hd]
          · rw [handleBuzz, if_neg hv]
      rw [heq]
      simpa using ih db

/-- C1: a buzz claim changes the row only when the stored row is armed
(the conditional write's filter); a claim against a non-armed row or
with a failed client guard has no visible effect; a successful claim
locks the row with the claiming team as winner; along any serialized
sequence of concurrent claims at most one succeeds; and once the row is
locked the winner is never overwritten by further claims. -/
theorem buzz_single_winner :
    (∀ (t : Option Team) (view db : GameState),
      db.buzzer_state ≠ BuzzerState.armed → handleBuzz t view db = db) ∧
    (∀ (t : Team) (view db : GameState),
      view.buzzer_state = BuzzerState.armed →
      db.buzzer_state = BuzzerState.armed →
      handleBuzz (some t) view db
        = { db with buzzer_state := BuzzerState.locked, buzzer_winner := some t }) ∧
    (∀ (attempts : List BuzzAttempt) (db : GameState),
      buzzSuccessCount attempts db ≤ 1) ∧
    (∀ (attempts : List BuzzAttempt) (db : GameState),
      db.buzzer_state ≠ BuzzerState.armed → runBuzzes attempts db = db) := by
  refine ⟨handleBuzz_not_armed, ?_, buzzSuccessCount_le_one, runBuzzes_not_armed⟩
  intro t view db hv hd
  rw [handleBuzz, if_pos hv, dbConditionalBuzz, if_pos hd]

/-- Witness for C1: team a's buzz against the armed sample row locks it
with winner a, and a locked row survives two further claim attempts
unchanged. -/
theorem buzz_single_winner_witness :
    sampleArmed.buzzer_state = BuzzerState.armed ∧
    handleBuzz (some Team.a) sampleArmed sampleArmed
      = { sampleArmed with
          buzzer_state := BuzzerState.locked, buzzer_winner := some Team.a } ∧
    runBuzzes [(some Team.a, sampleArmed), (some Team.b, sampleArmed)] sampleLocked
      = sampleLocked :=
  ⟨rfl,
   buzz_single_winner.2.1 Team.a sampleArmed sampleArmed rfl rfl,
   buzz_single_winner.2.2.2 [(some Team.a, sampleArmed), (some Team.b, sampleArmed)]
     sampleLocked (by decide)⟩

/-- Each operation of the application preserves the winner-implies-locked
invariant. -/
theorem applyOp_preserves_winnerLocked (op : HostOp) (s : GameState)
    (h : WinnerLockedInv s) : WinnerLockedInv (applyOp op s) := by
  cases op with
  | buzz t view =>
    cases t with
    | none => exact h
    | some t0 =>
      show WinnerLockedInv (handleBuzz (some t0) view s)
      rw [handleBuzz]
      by_cases hv : view.buzzer_state = BuzzerState.armed
      · rw [if_pos hv, dbConditionalBuzz]
        by_cases hd : s.buzzer_state = BuzzerState.armed
        · rw [if_pos hd]
          intro _
          rfl
        · rw [if_neg hd]
          exact h
      · rw [if_neg hv]
        exact h
  | resetBuzzers =>
    intro hw
    exact absurd rfl hw
  | strike cq =>
    show WinnerLockedInv (giveStrike cq s)
    rw [giveStrike]
    by_cases hc : 3 ≤ s.strikes ∨ cq = none
    · rw [if_pos hc]; exact h
    · rw [if_neg hc, handleGiveStrike]
      by_cases h3 : 3 ≤ s.strikes
      · rw [if_pos h3]; exact h
      · rw [if_neg h3]
        intro hw
        exact absurd rfl hw
  | reveal ans =>
    show WinnerLockedInv (handleRevealAnswer ans s)
    rw [handleRevealAnswer]
    by_cases hg : ans.id ∈ s.revealed_answers ∨ s.buzzer_winner = none
    · rw [if_pos hg]; exact h
    · rw [if_neg hg]
      intro _
      rfl
  | revealAll cq =>
    cases cq with
    | none => exact h
    | some q =>
      intro _
      rfl
  | setQuestion qId =>
    intro hw
    exact absurd rfl hw
  | clearBoard =>
    intro hw
    exact absurd rfl hw
  | setScore t v =>
    cases t <;> exact h
  | resetScores => exact h
  | setTeamName t n =>
    cases t <;> exact h

/-- C2: the invariant "buzzer_winner ≠ null implies buzzer_state =
locked" holds in every state reachable, by any sequence of the
operations claim, reset, strike, reveal, revealAll, selectQuestion,
clearBoard, setScore, resetScores and setTeamName, from a state that
satisfies it. -/
theorem winnerLocked_inv_reachable (ops : List HostOp) (s : GameState)
    (h : WinnerLockedInv s) : WinnerLockedInv (runOps ops s) := by
  induction ops generalizing s with
  | nil => exact h
  | cons op rest ih =>
    exact ih (applyOp op s) (applyOp_preserves_winnerLocked op s h)

/-- Witness for C2: the invariant holds after a buzz followed by a reveal
from the armed sample state. -/
theorem winnerLocked_inv_reachable_witness :
    WinnerLockedInv sampleArmed ∧
    WinnerLockedInv (runOps
      [HostOp.buzz (some Team.b) sampleArmed, HostOp.reveal sampleAnswer]
      sampleArmed) :=
  ⟨by decide,
   winnerLocked_inv_reachable
     [HostOp.buzz (some Team.b) sampleArmed, HostOp.reveal sampleAnswer]
     sampleArmed (by decide)⟩

end FamilyFeud
